import Mathlib

/-!
Shallow embedding of the slot-allocation and booking logic of
`src/server.js` (cata-backend).

The store is a PostgreSQL database with two tables:
`turnos_nailscata (id, fecha, hora, servicio, nombre, telefono, message)`
and `schedules (day_of_week_num, day_name, available_times)`.
We model it as explicit state (`DB`) and each HTTP route as a pure
function from state and request to a typed result and the new state.
-/

/-- A calendar date (the `fecha` / `date` values, ISO `YYYY-MM-DD`,
already parsed into year, month, day). -/
structure CDate where
  year : Nat
  month : Nat
  day : Nat
deriving DecidableEq, Repr

/-- Embeds `new Date(date).getDay()` at src/server.js:139: the Gregorian
weekday of the civil date, 0 = Sunday ... 6 = Saturday, computed by the
Zeller congruence. -/
def dayOfWeek (d : CDate) : Nat :=
  let y := if d.month ≤ 2 then d.year - 1 else d.year
  let m := if d.month ≤ 2 then d.month + 12 else d.month
  let K := y % 100
  let J := y / 100
  let h := (d.day + (13 * (m + 1)) / 5 + K + K / 4 + J / 4 + 5 * J) % 7
  (h + 6) % 7

/-- A row of the `turnos_nailscata` table. -/
structure Appointment where
  id : Nat
  fecha : CDate
  hora : String
  servicio : String
  nombre : String
  telefono : String
  message : Option String
deriving DecidableEq, Repr

/-- A row of the `schedules` table. -/
structure Schedule where
  day_of_week_num : Nat
  day_name : String
  available_times : List String
deriving DecidableEq, Repr

/-- The relational store: both tables, plus the id sequence that
generates fresh primary keys for `turnos_nailscata`. -/
structure DB where
  turnos : List Appointment
  schedules : List Schedule
  nextId : Nat
deriving DecidableEq, Repr

/-- `SELECT hora FROM turnos_nailscata WHERE fecha = $1` (src/server.js:156-160). -/
def bookedTimes (db : DB) (date : CDate) : List String :=
  (db.turnos.filter (fun a => a.fecha == date)).map (fun a => a.hora)

/-- `SELECT available_times FROM schedules WHERE day_of_week_num = $1`
(src/server.js:142-145). -/
def scheduleFor (db : DB) (dow : Nat) : Option Schedule :=
  db.schedules.find? (fun s => s.day_of_week_num == dow)

/-- The base slot list for a weekday: the schedules row if present,
otherwise the empty list (src/server.js:147-153). -/
def configuredTimes (db : DB) (dow : Nat) : List String :=
  match scheduleFor db dow with
  | some s => s.available_times
  | none => []

/-- `GET /api/available-times` (src/server.js:131-171): the configured
slots for the weekday of `date`, minus the times already booked on that
exact date. -/
def getAvailableTimes (db : DB) (date : CDate) : List String :=
  let availableTimes := configuredTimes db (dayOfWeek date)
  let bkd := bookedTimes db date
  availableTimes.filter (fun time => ! bkd.contains time)

/-- The JSON body of `POST /api/appointments` (src/server.js:69).
`none` models an absent field; a JS empty string is `some ""`. -/
structure CreateRequest where
  fecha : Option CDate
  hora : Option String
  servicio : Option String
  nombre : Option String
  telefono : Option String
  message : Option String
deriving DecidableEq, Repr

/-- JS falsiness of an optional string field: absent or the empty string. -/
def falsy : Option String → Bool
  | none => true
  | some s => s == ""

inductive CreateResult where
  /-- HTTP 400: `Faltan campos obligatorios` (src/server.js:72-74). -/
  | validationError
  /-- HTTP 409 on store error 23505 (src/server.js:123-125). -/
  | conflictError
  /-- HTTP 201 with the new row (src/server.js:116-119). -/
  | created (a : Appointment)
deriving DecidableEq, Repr

/-- What a `POST /api/appointments` call produces: the HTTP-level result,
the store afterwards, and the console log emitted by the mail callback. -/
structure CreateOutcome where
  result : CreateResult
  db : DB
  log : List String
deriving DecidableEq, Repr

/-- Modelled from the spec: the DDL of `turnos_nailscata` is not under
src/. The spec states the store enforces a uniqueness constraint on
`(date, time)`, and the handler at src/server.js:123 maps store error
23505 (unique violation for the same fecha/hora) to HTTP 409.
`hasConflict` is the condition under which the INSERT at
src/server.js:77-84 raises 23505 instead of inserting. -/
def hasConflict (db : DB) (fecha : CDate) (hora : String) : Bool :=
  db.turnos.any (fun a => a.fecha == fecha && a.hora == hora)

/-- The console line produced by the `transporter.sendMail` callback
(src/server.js:108-114); `mailOk` is the outcome of the send. -/
def mailLog (mailOk : Bool) : String :=
  if mailOk then "Correo de notificacion enviado"
  else "Error al enviar correo de notificacion"

/-- `POST /api/appointments` (src/server.js:68-128): validate required
fields, INSERT the row (409 on a (fecha, hora) unique violation),
fire the notification mail, and answer 201 with the new row. -/
def createAppointment (db : DB) (req : CreateRequest) (mailOk : Bool) : CreateOutcome :=
  match req.fecha, req.hora, req.servicio, req.nombre, req.telefono with
  | some fecha, some hora, some servicio, some nombre, some telefono =>
    if hora == "" || servicio == "" || nombre == "" || telefono == "" then
      ⟨.validationError, db, []⟩
    else if hasConflict db fecha hora then
      ⟨.conflictError, db, []⟩
    else
      let newAppointment : Appointment :=
        { id := db.nextId, fecha := fecha, hora := hora, servicio := servicio,
          nombre := nombre, telefono := telefono,
          message := if falsy req.message then none else req.message }
      ⟨.created newAppointment,
       { turnos := db.turnos ++ [newAppointment],
         schedules := db.schedules,
         nextId := db.nextId + 1 },
       [mailLog mailOk]⟩
  | _, _, _, _, _ => ⟨.validationError, db, []⟩

inductive DeleteResult where
  /-- HTTP 404: `Turno no encontrado` (src/server.js:182). -/
  | notFound
  /-- HTTP 200 with the deleted row (src/server.js:185). -/
  | deleted (a : Appointment)
deriving DecidableEq, Repr

/-- `DELETE /api/appointments/:id` (src/server.js:174-191):
`DELETE FROM turnos_nailscata WHERE id = $1 RETURNING *`; 404 when no
row matched, otherwise 200 with the deleted row. -/
def deleteAppointment (db : DB) (id : Nat) : DeleteResult × DB :=
  match db.turnos.find? (fun a => a.id == id) with
  | none => (.notFound, db)
  | some a =>
      (.deleted a,
       { db with turnos := db.turnos.filter (fun b => ! (b.id == id)) })

inductive SetScheduleResult where
  /-- HTTP 400: missing day_of_week_num, day_name or available_times
  (src/server.js:202-204). -/
  | validationError
  /-- HTTP 200 with the upserted row (src/server.js:218). -/
  | saved (s : Schedule)
deriving DecidableEq, Repr

/-- `POST /api/schedules` (src/server.js:199-223): validate the body,
then `INSERT ... ON CONFLICT (day_of_week_num) DO UPDATE` with the
given `available_times` array as-is. -/
def setSchedule (db : DB) (day_of_week_num : Option Nat) (day_name : Option String)
    (available_times : Option (List String)) : SetScheduleResult × DB :=
  match day_of_week_num, day_name, available_times with
  | some n, some dn, some ts =>
    if dn == "" then (.validationError, db)
    else
      let s : Schedule := ⟨n, dn, ts⟩
      let schedules :=
        if db.schedules.any (fun x => x.day_of_week_num == n) then
          db.schedules.map (fun x => if x.day_of_week_num == n then s else x)
        else
          db.schedules ++ [s]
      (.saved s, { db with schedules := schedules })
  | _, _, _ => (.validationError, db)

/-- The uniqueness invariant of the store: no two rows of
`turnos_nailscata` share a `(fecha, hora)` pair. -/
def UniquePairs (db : DB) : Prop :=
  db.turnos.Pairwise (fun a b => ¬ (a.fecha = b.fecha ∧ a.hora = b.hora))

instance (db : DB) : Decidable (UniquePairs db) := by
  unfold UniquePairs
  exact List.instDecidablePairwise _

/-- How many rows the store holds for one `(fecha, hora)` pair. -/
def countPair (db : DB) (fecha : CDate) (hora : String) : Nat :=
  (db.turnos.filter (fun a => a.fecha == fecha && a.hora == hora)).length

/-! ## Helper lemmas -/

/-- On a valid, conflict-free request, `createAppointment` is exactly:
append the new row, bump the id sequence, log the mail outcome. -/
theorem createAppointment_eq_of_valid (db : DB) (req : CreateRequest) (mailOk : Bool)
    (fecha : CDate) (hora servicio nombre telefono : String)
    (hf : req.fecha = some fecha) (hh : req.hora = some hora)
    (hs : req.servicio = some servicio) (hn : req.nombre = some nombre)
    (ht : req.telefono = some telefono)
    (hh1 : hora ≠ "") (hs1 : servicio ≠ "") (hn1 : nombre ≠ "") (ht1 : telefono ≠ "")
    (hnc : hasConflict db fecha hora = false) :
    createAppointment db req mailOk =
      ⟨.created ⟨db.nextId, fecha, hora, servicio, nombre, telefono,
                 if falsy req.message then none else req.message⟩,
       ⟨db.turnos ++ [⟨db.nextId, fecha, hora, servicio, nombre, telefono,
                       if falsy req.message then none else req.message⟩],
        db.schedules, db.nextId + 1⟩,
       [mailLog mailOk]⟩ := by
  obtain ⟨f, h, s, n, t, m⟩ := req
  simp only at hf hh hs hn ht
  subst hf hh hs hn ht
  simp [createAppointment, hnc, hh1, hs1, hn1, ht1]

/-- On a valid request whose `(fecha, hora)` pair is already taken,
`createAppointment` answers 409 and leaves the store untouched. -/
theorem createAppointment_eq_of_conflict (db : DB) (req : CreateRequest) (mailOk : Bool)
    (fecha : CDate) (hora servicio nombre telefono : String)
    (hf : req.fecha = some fecha) (hh : req.hora = some hora)
    (hs : req.servicio = some servicio) (hn : req.nombre = some nombre)
    (ht : req.telefono = some telefono)
    (hh1 : hora ≠ "") (hs1 : servicio ≠ "") (hn1 : nombre ≠ "") (ht1 : telefono ≠ "")
    (hc : hasConflict db fecha hora = true) :
    createAppointment db req mailOk = ⟨.conflictError, db, []⟩ := by
  obtain ⟨f, h, s, n, t, m⟩ := req
  simp only at hf hh hs hn ht
  subst hf hh hs hn ht
  simp [createAppointment, hc, hh1, hs1, hn1, ht1]

/-- `getAvailableTimes` reads only the two tables, never the id sequence. -/
theorem getAvailableTimes_congr (db1 db2 : DB) (ht : db1.turnos = db2.turnos)
    (hs : db1.schedules = db2.schedules) (d : CDate) :
    getAvailableTimes db1 d = getAvailableTimes db2 d := by
  simp [getAvailableTimes, configuredTimes, scheduleFor, bookedTimes, ht, hs]

/-- Under pairwise distinctness of `(fecha, hora)` pairs, at most one row
matches a given pair. -/
theorem length_filter_pair_le_one (l : List Appointment) (f : CDate) (h : String)
    (hu : l.Pairwise (fun a b => ¬ (a.fecha = b.fecha ∧ a.hora = b.hora))) :
    (l.filter (fun a => a.fecha == f && a.hora == h)).length ≤ 1 := by
  induction l with
  | nil => simp
  | cons a t ih =>
    rcases List.pairwise_cons.mp hu with ⟨ha, ht⟩
    by_cases hp : a.fecha = f ∧ a.hora = h
    · have hnil : t.filter (fun b => b.fecha == f && b.hora == h) = [] := by
        rw [List.filter_eq_nil_iff]
        intro b hb
        simp only [Bool.and_eq_true, beq_iff_eq, not_and]
        intro hbf hbh
        exact absurd ⟨hp.1.trans hbf.symm, hp.2.trans hbh.symm⟩ (ha b hb)
      simp [List.filter_cons, hp.1, hp.2, hnil]
    · have hfalse : (a.fecha == f && a.hora == h) = false := by
        simp only [Bool.and_eq_false_iff, beq_eq_false_iff_ne, ne_eq]
        by_cases hf1 : a.fecha = f
        · exact Or.inr (fun hh1 => hp ⟨hf1, hh1⟩)
        · exact Or.inl hf1
      simp only [List.filter_cons, hfalse, Bool.false_eq_true, if_false]
      exact ih ht

/-- `contains` over an append splits as a disjunction. -/
theorem contains_append_bool (l1 l2 : List String) (a : String) :
    ((l1 ++ l2).contains a) = (l1.contains a || l2.contains a) := by
  simp [List.contains_eq_any_beq, List.any_append]

/-- `contains` on a singleton is the `==` test. -/
theorem contains_singleton_bool (a b : String) : ([b].contains a) = (a == b) := by
  by_cases h : a = b <;> simp [List.contains_eq_any_beq, h]

/-- `contains` agrees with membership on string lists. -/
theorem contains_iff_mem_str (l : List String) (a : String) :
    (l.contains a) = true ↔ a ∈ l := by
  simp [List.contains_eq_any_beq]

/-! ## Claim theorems -/

/-- C1: at most one appointment row exists for a `(date, time)` pair;
a valid `createAppointment` call targeting a pair that already has a row
answers `ConflictError`, inserts no row, and leaves the store with
exactly one row for that pair. -/
theorem create_conflict_unique_row (db : DB) (req : CreateRequest) (mailOk : Bool)
    (fecha : CDate) (hora servicio nombre telefono : String)
    (hf : req.fecha = some fecha) (hh : req.hora = some hora)
    (hs : req.servicio = some servicio) (hn : req.nombre = some nombre)
    (ht : req.telefono = some telefono)
    (hh1 : hora ≠ "") (hs1 : servicio ≠ "") (hn1 : nombre ≠ "") (ht1 : telefono ≠ "")
    (hu : UniquePairs db) (hc : hasConflict db fecha hora = true) :
    (createAppointment db req mailOk).result = .conflictError ∧
    (createAppointment db req mailOk).db = db ∧
    countPair db fecha hora = 1 := by
  rw [createAppointment_eq_of_conflict db req mailOk fecha hora servicio nombre telefono
      hf hh hs hn ht hh1 hs1 hn1 ht1 hc]
  refine ⟨rfl, rfl, ?_⟩
  have hle := length_filter_pair_le_one db.turnos fecha hora hu
  unfold hasConflict at hc
  rw [List.any_eq_true] at hc
  obtain ⟨a, ha, hpa⟩ := hc
  have hmem : a ∈ db.turnos.filter (fun a => a.fecha == fecha && a.hora == hora) :=
    List.mem_filter.mpr ⟨ha, hpa⟩
  have hpos := List.length_pos.mpr (List.ne_nil_of_mem hmem)
  unfold countPair
  omega

def c1db : DB := ⟨[⟨1, ⟨2025, 6, 10⟩, "09:00", "manicure", "Ana", "111", none⟩], [], 2⟩

def c1req : CreateRequest :=
  ⟨some ⟨2025, 6, 10⟩, some "09:00", some "manicure", some "Ana", some "111", none⟩

/-- Witness for C1 at a concrete one-row store. -/
theorem create_conflict_unique_row_witness :
    UniquePairs c1db ∧ hasConflict c1db ⟨2025, 6, 10⟩ "09:00" = true ∧
    ((createAppointment c1db c1req true).result = .conflictError ∧
     (createAppointment c1db c1req true).db = c1db ∧
     countPair c1db ⟨2025, 6, 10⟩ "09:00" = 1) :=
  ⟨by decide, by decide,
   create_conflict_unique_row c1db c1req true ⟨2025, 6, 10⟩ "09:00" "manicure" "Ana" "111"
     rfl rfl rfl rfl rfl (by decide) (by decide) (by decide) (by decide)
     (by decide) (by decide)⟩

/-- C5: a create request with a required field missing or empty fails with
ValidationError and performs no store mutation. -/
theorem create_missing_field_validation (db : DB) (req : CreateRequest) (mailOk : Bool)
    (h : req.fecha = none ∨ falsy req.hora = true ∨ falsy req.servicio = true ∨
      falsy req.nombre = true ∨ falsy req.telefono = true) :
    createAppointment db req mailOk = ⟨.validationError, db, []⟩ := by
  obtain ⟨f, ho, s, n, t, m⟩ := req
  cases f <;> cases ho <;> cases s <;> cases n <;> cases t <;>
    first
      | rfl
      | (simp_all [createAppointment, falsy]; intros; tauto)

def c5req : CreateRequest :=
  ⟨some ⟨2025, 6, 10⟩, some "09:00", some "manicure", some "Ana", some "", none⟩

/-- Witness for C5: an empty contact field is rejected without mutation. -/
theorem create_missing_field_validation_witness :
    (c5req.fecha = none ∨ falsy c5req.hora = true ∨ falsy c5req.servicio = true ∨
      falsy c5req.nombre = true ∨ falsy c5req.telefono = true) ∧
    createAppointment ⟨[], [], 1⟩ c5req true = ⟨.validationError, ⟨[], [], 1⟩, []⟩ :=
  ⟨by decide, create_missing_field_validation ⟨[], [], 1⟩ c5req true (by decide)⟩

/-- C6: a date whose weekday has no schedules row gets an empty list of
available times, never an error. -/
theorem getAvailableTimes_no_schedule (db : DB) (date : CDate)
    (h : scheduleFor db (dayOfWeek date) = none) :
    getAvailableTimes db date = [] := by
  simp [getAvailableTimes, configuredTimes, h]

/-- Witness for C6 at an empty store. -/
theorem getAvailableTimes_no_schedule_witness :
    scheduleFor ⟨[], [], 1⟩ (dayOfWeek ⟨2025, 6, 10⟩) = none ∧
    getAvailableTimes ⟨[], [], 1⟩ ⟨2025, 6, 10⟩ = [] :=
  ⟨rfl, getAvailableTimes_no_schedule ⟨[], [], 1⟩ ⟨2025, 6, 10⟩ rfl⟩

/-- C10: availability depends only on the weekday of the queried date and
the booked times of that date: two dates on the same weekday with the
same booked-time sets get the same available-times list. -/
theorem getAvailableTimes_weekday_congr (db : DB) (d1 d2 : CDate)
    (hw : dayOfWeek d1 = dayOfWeek d2)
    (hb : ∀ t, t ∈ bookedTimes db d1 ↔ t ∈ bookedTimes db d2) :
    getAvailableTimes db d1 = getAvailableTimes db d2 := by
  unfold getAvailableTimes
  rw [hw]
  apply List.filter_congr
  intro t _
  have hcont : (bookedTimes db d1).contains t = (bookedTimes db d2).contains t :=
    Bool.coe_iff_coe.mp
      (by rw [contains_iff_mem_str, contains_iff_mem_str]; exact hb t)
  rw [hcont]

def c10db : DB := ⟨[], [⟨2, "Tuesday", ["09:00", "10:00"]⟩], 1⟩

/-- Witness for C10: 2025-06-10 and 2025-06-17 are both Tuesdays. -/
theorem getAvailableTimes_weekday_congr_witness :
    dayOfWeek ⟨2025, 6, 10⟩ = dayOfWeek ⟨2025, 6, 17⟩ ∧
    getAvailableTimes c10db ⟨2025, 6, 10⟩ = getAvailableTimes c10db ⟨2025, 6, 17⟩ :=
  ⟨by decide,
   getAvailableTimes_weekday_congr c10db ⟨2025, 6, 10⟩ ⟨2025, 6, 17⟩ (by decide)
     (fun t => Iff.rfl)⟩

/-- Appending a row for date `d` appends its time to the booked times of `d`. -/
theorem bookedTimes_append_one (db : DB) (a : Appointment) (n : Nat) (d : CDate)
    (ha : a.fecha = d) :
    bookedTimes ⟨db.turnos ++ [a], db.schedules, n⟩ d = bookedTimes db d ++ [a.hora] := by
  simp [bookedTimes, List.filter_append, ha]

/-- C2: for every store and date, the available times are exactly the
slots configured for the weekday of the date minus the times booked on
that exact date; and a successful create for a slot removes exactly that
slot from the available times of its date. -/
theorem getAvailableTimes_configured_minus_booked :
    (∀ (db : DB) (date : CDate) (t : String),
      t ∈ getAvailableTimes db date ↔
        t ∈ configuredTimes db (dayOfWeek date) ∧ t ∉ bookedTimes db date) ∧
    (∀ (db : DB) (req : CreateRequest) (mailOk : Bool) (fecha : CDate)
      (hora servicio nombre telefono : String),
      req.fecha = some fecha → req.hora = some hora → req.servicio = some servicio →
      req.nombre = some nombre → req.telefono = some telefono →
      hora ≠ "" → servicio ≠ "" → nombre ≠ "" → telefono ≠ "" →
      hasConflict db fecha hora = false →
      getAvailableTimes (createAppointment db req mailOk).db fecha =
        (getAvailableTimes db fecha).filter (fun t => ! (t == hora))) := by
  constructor
  · intro db date t
    unfold getAvailableTimes
    rw [List.mem_filter]
    constructor
    · rintro ⟨h1, h2⟩
      refine ⟨h1, fun hmem => ?_⟩
      rw [← contains_iff_mem_str] at hmem
      rw [hmem] at h2
      exact absurd h2 (by decide)
    · rintro ⟨h1, h2⟩
      refine ⟨h1, ?_⟩
      cases hc : (bookedTimes db date).contains t with
      | false => rfl
      | true => exact absurd ((contains_iff_mem_str _ _).mp hc) h2
  · intro db req mailOk fecha hora servicio nombre telefono hf hh hs hn ht
      hh1 hs1 hn1 ht1 hnc
    rw [createAppointment_eq_of_valid db req mailOk fecha hora servicio nombre telefono
        hf hh hs hn ht hh1 hs1 hn1 ht1 hnc]
    show getAvailableTimes ⟨db.turnos ++ [_], db.schedules, _⟩ fecha = _
    unfold getAvailableTimes
    rw [bookedTimes_append_one db _ _ fecha rfl]
    have hconf : configuredTimes ⟨db.turnos ++
        [⟨db.nextId, fecha, hora, servicio, nombre, telefono,
          if falsy req.message then none else req.message⟩],
        db.schedules, db.nextId + 1⟩ (dayOfWeek fecha)
        = configuredTimes db (dayOfWeek fecha) := rfl
    rw [hconf, List.filter_filter]
    apply List.filter_congr
    intro x _
    rw [contains_append_bool, contains_singleton_bool, Bool.not_or]
    exact Bool.and_comm _ _

def scA_db : DB := ⟨[], [⟨2, "Tuesday", ["09:00", "10:00"]⟩], 1⟩

def scA_req : CreateRequest :=
  ⟨some ⟨2025, 6, 10⟩, some "09:00", some "manicure", some "Ana", some "111", none⟩

/-- Witness for C2: Scenario A, booking 09:00 on Tuesday 2025-06-10
leaves exactly 10:00 available. -/
theorem getAvailableTimes_configured_minus_booked_witness :
    hasConflict scA_db ⟨2025, 6, 10⟩ "09:00" = false ∧
    getAvailableTimes (createAppointment scA_db scA_req true).db ⟨2025, 6, 10⟩ =
      (getAvailableTimes scA_db ⟨2025, 6, 10⟩).filter (fun t => ! (t == "09:00")) ∧
    getAvailableTimes (createAppointment scA_db scA_req true).db ⟨2025, 6, 10⟩ = ["10:00"] :=
  ⟨by decide,
   getAvailableTimes_configured_minus_booked.2 scA_db scA_req true ⟨2025, 6, 10⟩
     "09:00" "manicure" "Ana" "111" rfl rfl rfl rfl rfl (by decide) (by decide)
     (by decide) (by decide) (by decide),
   by decide⟩

/-- Deleting a freshly appended row by its id returns exactly that row
and restores the previous rows. -/
theorem deleteAppointment_fresh (db : DB) (a : Appointment) (n : Nat)
    (hfresh : ∀ b ∈ db.turnos, b.id ≠ a.id) :
    deleteAppointment ⟨db.turnos ++ [a], db.schedules, n⟩ a.id =
      (.deleted a, ⟨db.turnos, db.schedules, n⟩) := by
  have hpre : db.turnos.find? (fun b => b.id == a.id) = none := by
    rw [List.find?_eq_none]
    intro x hx hbe
    exact hfresh x hx (by simpa using hbe)
  have hfind : (db.turnos ++ [a]).find? (fun b => b.id == a.id) = some a := by
    rw [List.find?_append, hpre]
    simp [List.find?]
  have hfil : (db.turnos ++ [a]).filter (fun b => ! (b.id == a.id)) = db.turnos := by
    rw [List.filter_append]
    have h1 : db.turnos.filter (fun b => ! (b.id == a.id)) = db.turnos := by
      rw [List.filter_eq_self]
      intro x hx
      simp [hfresh x hx]
    have h2 : [a].filter (fun b => ! (b.id == a.id)) = [] := by simp
    rw [h1, h2, List.append_nil]
  simp [deleteAppointment, hfind, hfil]

/-- C3: a successful create followed by deleting the created id restores
the available times of the date to their previous value. -/
theorem create_delete_roundtrip (db : DB) (req : CreateRequest) (mailOk : Bool)
    (fecha : CDate) (hora servicio nombre telefono : String)
    (hf : req.fecha = some fecha) (hh : req.hora = some hora)
    (hs : req.servicio = some servicio) (hn : req.nombre = some nombre)
    (ht : req.telefono = some telefono)
    (hh1 : hora ≠ "") (hs1 : servicio ≠ "") (hn1 : nombre ≠ "") (ht1 : telefono ≠ "")
    (hfresh : ∀ a ∈ db.turnos, a.id ≠ db.nextId)
    (hnc : hasConflict db fecha hora = false) :
    ∃ a, (createAppointment db req mailOk).result = .created a ∧
      (deleteAppointment (createAppointment db req mailOk).db a.id).1 = .deleted a ∧
      getAvailableTimes (deleteAppointment (createAppointment db req mailOk).db a.id).2 fecha
        = getAvailableTimes db fecha := by
  rw [createAppointment_eq_of_valid db req mailOk fecha hora servicio nombre telefono
      hf hh hs hn ht hh1 hs1 hn1 ht1 hnc]
  refine ⟨⟨db.nextId, fecha, hora, servicio, nombre, telefono,
    if falsy req.message then none else req.message⟩, rfl, ?_, ?_⟩
  · rw [show (⟨db.turnos ++ [⟨db.nextId, fecha, hora, servicio, nombre, telefono,
        if falsy req.message then none else req.message⟩],
        db.schedules, db.nextId + 1⟩ : DB)
        = ⟨(⟨db.turnos, db.schedules, db.nextId + 1⟩ : DB).turnos ++
           [⟨db.nextId, fecha, hora, servicio, nombre, telefono,
             if falsy req.message then none else req.message⟩],
           (⟨db.turnos, db.schedules, db.nextId + 1⟩ : DB).schedules, db.nextId + 1⟩
        from rfl]
    rw [deleteAppointment_fresh ⟨db.turnos, db.schedules, db.nextId + 1⟩ _ _
        (fun b hb => hfresh b hb)]
  · rw [show (⟨db.turnos ++ [⟨db.nextId, fecha, hora, servicio, nombre, telefono,
        if falsy req.message then none else req.message⟩],
        db.schedules, db.nextId + 1⟩ : DB)
        = ⟨(⟨db.turnos, db.schedules, db.nextId + 1⟩ : DB).turnos ++
           [⟨db.nextId, fecha, hora, servicio, nombre, telefono,
             if falsy req.message then none else req.message⟩],
           (⟨db.turnos, db.schedules, db.nextId + 1⟩ : DB).schedules, db.nextId + 1⟩
        from rfl]
    rw [deleteAppointment_fresh ⟨db.turnos, db.schedules, db.nextId + 1⟩ _ _
        (fun b hb => hfresh b hb)]
    exact getAvailableTimes_congr _ _ rfl rfl fecha

/-- Witness for C3: Scenario A followed by Scenario C. -/
theorem create_delete_roundtrip_witness :
    (∀ a ∈ scA_db.turnos, a.id ≠ scA_db.nextId) ∧
    hasConflict scA_db ⟨2025, 6, 10⟩ "09:00" = false ∧
    (∃ a, (createAppointment scA_db scA_req true).result = .created a ∧
      (deleteAppointment (createAppointment scA_db scA_req true).db a.id).1 = .deleted a ∧
      getAvailableTimes
        (deleteAppointment (createAppointment scA_db scA_req true).db a.id).2 ⟨2025, 6, 10⟩
        = getAvailableTimes scA_db ⟨2025, 6, 10⟩) :=
  ⟨by decide, by decide,
   create_delete_roundtrip scA_db scA_req true ⟨2025, 6, 10⟩ "09:00" "manicure" "Ana" "111"
     rfl rfl rfl rfl rfl (by decide) (by decide) (by decide) (by decide)
     (by decide) (by decide)⟩

def c4db : DB := ⟨[], [⟨2, "Tuesday", ["09:00"]⟩], 1⟩

def c4req : CreateRequest :=
  ⟨some ⟨2025, 6, 10⟩, some "23:59", some "manicure", some "Ana", some "111", none⟩

/-- C4 counterexample: on 2025-06-10 only 09:00 is offered, yet a booking
request for 23:59 succeeds and inserts a row, so createAppointment does
not verify the requested time against the availability for the date. -/
theorem create_unoffered_time_cex :
    "23:59" ∉ getAvailableTimes c4db ⟨2025, 6, 10⟩ ∧
    (createAppointment c4db c4req true).result =
      .created ⟨1, ⟨2025, 6, 10⟩, "23:59", "manicure", "Ana", "111", none⟩ ∧
    (createAppointment c4db c4req true).db.turnos =
      [⟨1, ⟨2025, 6, 10⟩, "23:59", "manicure", "Ana", "111", none⟩] := by
  refine ⟨?_, ?_, ?_⟩ <;> decide

/-- C4 amended: createAppointment never consults the availability
registry; every valid request whose `(date, time)` pair is free is
booked, whether or not the time is offered for that date. -/
theorem create_no_availability_check (db : DB) (req : CreateRequest) (mailOk : Bool)
    (fecha : CDate) (hora servicio nombre telefono : String)
    (hf : req.fecha = some fecha) (hh : req.hora = some hora)
    (hs : req.servicio = some servicio) (hn : req.nombre = some nombre)
    (ht : req.telefono = some telefono)
    (hh1 : hora ≠ "") (hs1 : servicio ≠ "") (hn1 : nombre ≠ "") (ht1 : telefono ≠ "")
    (hnc : hasConflict db fecha hora = false) :
    ∃ a, (createAppointment db req mailOk).result = .created a ∧
      a.fecha = fecha ∧ a.hora = hora ∧
      (createAppointment db req mailOk).db.turnos = db.turnos ++ [a] := by
  rw [createAppointment_eq_of_valid db req mailOk fecha hora servicio nombre telefono
      hf hh hs hn ht hh1 hs1 hn1 ht1 hnc]
  exact ⟨_, rfl, rfl, rfl, rfl⟩

/-- Witness for the amended C4: the unoffered time 23:59 is booked. -/
theorem create_no_availability_check_witness :
    hasConflict c4db ⟨2025, 6, 10⟩ "23:59" = false ∧
    (∃ a, (createAppointment c4db c4req true).result = .created a ∧
      a.fecha = ⟨2025, 6, 10⟩ ∧ a.hora = "23:59" ∧
      (createAppointment c4db c4req true).db.turnos = c4db.turnos ++ [a]) :=
  ⟨by decide,
   create_no_availability_check c4db c4req true ⟨2025, 6, 10⟩ "23:59" "manicure" "Ana"
     "111" rfl rfl rfl rfl rfl (by decide) (by decide) (by decide) (by decide)
     (by decide)⟩

/-- In the DO-UPDATE branch of the upsert, the row found for the day
afterwards is the new one. -/
theorem find_after_update (l : List Schedule) (n : Nat) (s : Schedule)
    (hs : s.day_of_week_num = n) :
    (l.map (fun x => if x.day_of_week_num == n then s else x)).find?
      (fun x => x.day_of_week_num == n) =
    (if l.any (fun x => x.day_of_week_num == n) then some s else none) := by
  induction l with
  | nil => simp
  | cons a t ih =>
    by_cases h : a.day_of_week_num = n
    · have hb : (a.day_of_week_num == n) = true := by simp [h]
      simp only [List.map_cons, hb, if_true, List.any_cons, Bool.true_or]
      rw [List.find?_cons_of_pos]
      simp [hs]
    · have hb : (a.day_of_week_num == n) = false := by simp [h]
      simp only [List.map_cons, hb, Bool.false_eq_true, if_false, List.any_cons,
        Bool.false_or]
      rw [List.find?_cons_of_neg]
      · exact ih
      · simp [h]

/-- In the INSERT branch of the upsert, the appended row is the one found. -/
theorem find_after_insert (l : List Schedule) (n : Nat) (s : Schedule)
    (hs : s.day_of_week_num = n)
    (hnone : l.any (fun x => x.day_of_week_num == n) = false) :
    (l ++ [s]).find? (fun x => x.day_of_week_num == n) = some s := by
  rw [List.find?_append]
  have hfind : l.find? (fun x => x.day_of_week_num == n) = none := by
    rw [List.find?_eq_none]
    intro x hx hbe
    have : l.any (fun x => x.day_of_week_num == n) = true :=
      List.any_eq_true.mpr ⟨x, hx, hbe⟩
    rw [this] at hnone
    exact absurd hnone (by decide)
  rw [hfind]
  simp [List.find?, hs]

/-- C7 counterexample: duplicate time labels submitted to setSchedule are
stored as given, not collapsed, so the stored slots are not unique. -/
theorem setSchedule_duplicates_kept_cex :
    (setSchedule ⟨[], [], 1⟩ (some 1) (some "Monday")
        (some ["09:00", "09:00"])).2.schedules
      = [⟨1, "Monday", ["09:00", "09:00"]⟩] ∧
    ¬ (∀ s ∈ (setSchedule ⟨[], [], 1⟩ (some 1) (some "Monday")
        (some ["09:00", "09:00"])).2.schedules, s.available_times.Nodup) := by
  constructor <;> decide

/-- C7 amended: setSchedule stores the submitted `available_times` list
verbatim in the schedules row for the day; duplicates are kept. -/
theorem setSchedule_stores_slots_verbatim (db : DB) (n : Nat) (dn : String)
    (ts : List String) (hdn : dn ≠ "") :
    (setSchedule db (some n) (some dn) (some ts)).1 = .saved ⟨n, dn, ts⟩ ∧
    (setSchedule db (some n) (some dn) (some ts)).2.schedules.find?
      (fun x => x.day_of_week_num == n) = some ⟨n, dn, ts⟩ := by
  have hdn2 : (dn == "") = false := by simp [hdn]
  unfold setSchedule
  simp only [hdn2, Bool.false_eq_true, if_false]
  refine ⟨by trivial, ?_⟩
  by_cases hany : db.schedules.any (fun x => x.day_of_week_num == n) = true
  · simp only [hany, if_true]
    rw [find_after_update db.schedules n ⟨n, dn, ts⟩ rfl, hany]
    simp
  · have hany2 : db.schedules.any (fun x => x.day_of_week_num == n) = false :=
      Bool.eq_false_iff.mpr hany
    simp only [hany2, Bool.false_eq_true, if_false]
    exact find_after_insert db.schedules n ⟨n, dn, ts⟩ rfl hany2

/-- Witness for the amended C7: the duplicated list is stored verbatim. -/
theorem setSchedule_stores_slots_verbatim_witness :
    ("Monday" : String) ≠ "" ∧
    ((setSchedule ⟨[], [], 1⟩ (some 1) (some "Monday")
        (some ["09:00", "09:00"])).1 = .saved ⟨1, "Monday", ["09:00", "09:00"]⟩ ∧
     (setSchedule ⟨[], [], 1⟩ (some 1) (some "Monday")
        (some ["09:00", "09:00"])).2.schedules.find?
        (fun x => x.day_of_week_num == 1) = some ⟨1, "Monday", ["09:00", "09:00"]⟩) :=
  ⟨by decide,
   setSchedule_stores_slots_verbatim ⟨[], [], 1⟩ 1 "Monday" ["09:00", "09:00"]
     (by decide)⟩

/-- C8: deleteAppointment answers NotFoundError and leaves the store
unchanged when no row carries the id; when one does, it returns a deleted
row carrying the id and the store afterwards holds exactly the rows whose
id differs, schedules untouched. -/
theorem deleteAppointment_found_or_notFound (db : DB) (id : Nat) :
    ((∀ a ∈ db.turnos, a.id ≠ id) → deleteAppointment db id = (.notFound, db)) ∧
    (∀ a, a ∈ db.turnos → a.id = id →
      ∃ a2, (deleteAppointment db id).1 = .deleted a2 ∧ a2 ∈ db.turnos ∧ a2.id = id ∧
        (∀ b, b ∈ (deleteAppointment db id).2.turnos ↔ b ∈ db.turnos ∧ b.id ≠ id) ∧
        (deleteAppointment db id).2.schedules = db.schedules) := by
  constructor
  · intro h
    have hfind : db.turnos.find? (fun a => a.id == id) = none := by
      rw [List.find?_eq_none]
      intro x hx hbe
      exact h x hx (by simpa using hbe)
    simp [deleteAppointment, hfind]
  · intro a ha haid
    cases hfind : db.turnos.find? (fun b => b.id == id) with
    | none =>
      rw [List.find?_eq_none] at hfind
      exact absurd (by simp [haid]) (hfind a ha)
    | some a2 =>
      have hp := List.find?_some hfind
      have hmem := List.mem_of_find?_eq_some hfind
      refine ⟨a2, ?_, hmem, by simpa using hp, ?_, ?_⟩
      · simp [deleteAppointment, hfind]
      · intro b
        simp [deleteAppointment, hfind, List.mem_filter]
      · simp [deleteAppointment, hfind]

/-- Witness for C8: deleting an absent id answers NotFoundError and
leaves the store as it was. -/
theorem deleteAppointment_found_or_notFound_witness :
    (∀ a ∈ c1db.turnos, a.id ≠ 5) ∧ deleteAppointment c1db 5 = (.notFound, c1db) :=
  ⟨by decide, (deleteAppointment_found_or_notFound c1db 5).1 (by decide)⟩

/-- The result and store components of a create do not depend on the
outcome of the notification send. -/
theorem createAppointment_result_db_const (db : DB) (req : CreateRequest) (m1 m2 : Bool) :
    (createAppointment db req m1).result = (createAppointment db req m2).result ∧
    (createAppointment db req m1).db = (createAppointment db req m2).db := by
  obtain ⟨f, ho, s, n, t, m⟩ := req
  cases f <;> cases ho <;> cases s <;> cases n <;> cases t <;>
    simp only [createAppointment] <;> (try split) <;> (try split) <;> trivial

/-- A row reported as created by a create call is in the store it leaves. -/
theorem createAppointment_created_mem (db : DB) (req : CreateRequest) (mo : Bool)
    (a : Appointment) :
    (createAppointment db req mo).result = .created a →
    a ∈ (createAppointment db req mo).db.turnos := by
  obtain ⟨f, ho, s, n, t, m⟩ := req
  cases f <;> cases ho <;> cases s <;> cases n <;> cases t <;>
    intro h <;>
    simp only [createAppointment] at h ⊢ <;>
    try (cases h)
  rename_i fecha hora servicio nombre telefono
  by_cases h1 : (hora == "" || servicio == "" || nombre == "" || telefono == "") = true
  · rw [if_pos h1] at h
    exact absurd h (by simp)
  · rw [if_neg h1] at h ⊢
    by_cases h2 : hasConflict db fecha hora = true
    · rw [if_pos h2] at h
      exact absurd h (by simp)
    · rw [if_neg h2] at h ⊢
      simp only [CreateResult.created.injEq] at h
      subst h
      simp

/-- C9: the caller-visible outcome of createAppointment is independent of
the notification send outcome — result and store match for any two mail
outcomes — and a booking reported as created is in the store, so a mail
failure never undoes it. -/
theorem create_outcome_mail_independent (db : DB) (req : CreateRequest) (m1 m2 : Bool) :
    (createAppointment db req m1).result = (createAppointment db req m2).result ∧
    (createAppointment db req m1).db = (createAppointment db req m2).db ∧
    (∀ a, (createAppointment db req m1).result = .created a →
      a ∈ (createAppointment db req m1).db.turnos) :=
  ⟨(createAppointment_result_db_const db req m1 m2).1,
   (createAppointment_result_db_const db req m1 m2).2,
   fun a h => createAppointment_created_mem db req m1 a h⟩

/-- Witness for C9: a booking made while the mail send fails is still in
the store. -/
theorem create_outcome_mail_independent_witness :
    ((createAppointment scA_db scA_req false).result =
      .created ⟨1, ⟨2025, 6, 10⟩, "09:00", "manicure", "Ana", "111", none⟩) ∧
    (⟨1, ⟨2025, 6, 10⟩, "09:00", "manicure", "Ana", "111", none⟩ : Appointment)
      ∈ (createAppointment scA_db scA_req false).db.turnos :=
  ⟨by decide,
   (create_outcome_mail_independent scA_db scA_req false true).2.2
     ⟨1, ⟨2025, 6, 10⟩, "09:00", "manicure", "Ana", "111", none⟩ (by decide)⟩
